import Mathlib

/-!
# Shallow embedding of `src/alishba.py` (Streamlit school-management console)

The program is a single-file Streamlit app over a SQLite database with seven
fixed-schema tables.  Every table has an `INTEGER PRIMARY KEY` column `id`
followed by a fixed list of data columns (line 28-36 of the source).  The
record accessors are

* `get_df`      (line 42-43):  `SELECT * FROM table` — all rows, rowid order;
* `add_record`  (line 45-49):  `INSERT INTO table (cols) VALUES (…)` where the
  column list never contains `id`, so SQLite auto-assigns the rowid
  (largest existing rowid + 1, or 1 for an empty table);
* `delete_record` (line 51-53): `DELETE FROM table WHERE id=?`.

The generic CRUD view `crud_module` (line 63-102) adds the search step
(pandas `str.contains(search, case=False)`, which treats the query as a
case-insensitive *regular expression*) and the update step (one
`UPDATE table SET field=? WHERE id=?` statement per non-empty input).

Modelling choices, stated once:

* A table is a `List Row` kept in rowid order; since the app never supplies
  an id, ids are assigned by `nextId` (max of existing ids, floored at 0,
  plus one), which matches SQLite rowid assignment on every state reachable
  by the app.  `get_df` is the identity on this representation.
* Cell values are `Value`: either an integer or a text string.  SQLite type
  affinity (e.g. the TEXT→INTEGER coercion on an `INTEGER` column) is
  abstracted away: the store keeps the bound value as given.  The spec
  itself brackets this out ("no coercion beyond the store's native typing").
* `date.today()` (line 132) is modelled as an explicit string parameter.
* Python/pandas regular-expression search is modelled for the fragment the
  analysis needs: patterns made of literal characters and the metacharacter
  `.`; any pattern containing another regex metacharacter is outside the
  model and the search step returns `none` for it.
* Case folding (`case=False`, i.e. `re.IGNORECASE`) is modelled with
  `Char.toLower`, i.e. at ASCII precision.
-/

/-- A cell value: SQLite INTEGER or TEXT.  (REAL columns only ever receive
values the claims treat as integers; floating point is not needed.) -/
inductive Value where
  | intV  (n : Int)    : Value
  | textV (s : String) : Value
deriving DecidableEq, Repr

/-- The string form of a cell, as produced by pandas `row.astype(str)`
(line 78): integers print in decimal, text is kept as is. -/
def Value.toStr : Value → String
  | .intV n  => toString n
  | .textV s => s

/-- The integer content of a cell, used for the dashboard sum over the
`paid` column (line 112).  Cells that are not integers are outside the
modelled behaviour of a numeric pandas sum and read as 0. -/
def Value.asInt : Value → Int
  | .intV n  => n
  | .textV _ => 0

/-- One table row: the auto-assigned `id` primary key plus the data columns
in schema order (every non-`id` column, left to right). -/
structure Row where
  id     : Int
  fields : List Value
deriving DecidableEq, Repr

/-- A table, in rowid order. -/
abbrev Table := List Row

/-- The id SQLite assigns to the next inserted row when the INSERT does not
mention the `id` column (line 45-48 never does): one more than the largest
existing rowid, and 1 for an empty table. -/
def nextId (t : Table) : Int :=
  (t.map Row.id).foldr max 0 + 1

/-- `get_df` (line 42-43): `SELECT * FROM table` materialises every row in
rowid order — the identity on our representation. -/
def get_df (t : Table) : Table := t

/-- `add_record` (line 45-49): INSERT of the data columns only; SQLite
appends one row with the auto-assigned id. -/
def add_record (t : Table) (values : List Value) : Table :=
  t ++ [{ id := nextId t, fields := values }]

/-- `delete_record` (line 51-53): `DELETE FROM table WHERE id=?` removes
every row whose id equals the argument. -/
def delete_record (t : Table) (id_val : Int) : Table :=
  t.filter (fun r => r.id ≠ id_val)

/-- The per-field effect of the update loop of `crud_module`
(line 98-100): for each data column position, a non-empty input text
overwrites that column of the targeted row; an empty input issues no
UPDATE statement for it. -/
def applyUpdates : List Value → List String → List Value
  | [],      _       => []
  | fs,      []      => fs
  | f :: fs, u :: us => (if u = "" then f else Value.textV u) :: applyUpdates fs us

/-- The update step of `crud_module` (line 96-101): for every data column
with a non-empty input, `UPDATE table SET field=? WHERE id=?` is executed
with the entered id; rows whose id differs are untouched. -/
def update_record (t : Table) (record_id : Int) (updates : List String) : Table :=
  t.map (fun r =>
    if r.id = record_id then { r with fields := applyUpdates r.fields updates } else r)

section Search

/-- The regex metacharacters of Python `re` other than `.`; a query
containing one of these is outside the modelled regex fragment. -/
def metachars : List Char :=
  ['^', '$', '*', '+', '?', '\x7b', '\x7d', '[', ']', '\\', '|', '(', ')']

/-- A token of the modelled regex fragment: a literal character or `.`. -/
inductive RTok where
  | lit (c : Char) : RTok
  | dot            : RTok
deriving DecidableEq, Repr

/-- Parse one pattern character into a token; `none` on an unmodelled
metacharacter. -/
def parseTok (c : Char) : Option RTok :=
  if c ∈ metachars then none
  else if c = '.' then some RTok.dot
  else some (RTok.lit c)

/-- Parse a whole pattern; `none` if any character is an unmodelled
metacharacter. -/
def parsePat (s : String) : Option (List RTok) :=
  s.data.mapM parseTok

/-- Whether one token matches one character, under `re.IGNORECASE`
(from `case=False` on line 78): literals compare lower-cased, `.` matches
every character except a newline. -/
def tokMatch : RTok → Char → Bool
  | .lit c, d => c.toLower = d.toLower
  | .dot,   d => d ≠ '\n'

/-- Whether the token list matches a prefix of the character list. -/
def matchFront : List RTok → List Char → Bool
  | [],        _       => true
  | _ :: _,    []      => false
  | tk :: tks, c :: cs => tokMatch tk c && matchFront tks cs

/-- Python `re.search`: whether the token list matches at some position of
the character list. -/
def reSearch (tks : List RTok) : List Char → Bool
  | []      => matchFront tks []
  | c :: cs => matchFront tks (c :: cs) || reSearch tks cs

/-- The stringified cells of one row, as pandas `row.astype(str)`
(line 78) produces them: the id column followed by the data columns. -/
def rowCells (r : Row) : List String :=
  toString r.id :: r.fields.map Value.toStr

/-- One pattern applied to one row: `row.astype(str).str.contains(search,
case=False).any()` (line 78). -/
def rowMatches (tks : List RTok) (r : Row) : Bool :=
  (rowCells r).any (fun cell => reSearch tks cell.data)

/-- The search step of `crud_module` (line 75-78): an empty query leaves
the snapshot unfiltered (`if search:`); a non-empty query filters to the
rows where some stringified column matches it as a case-insensitive regex.
`none` means the query uses a regex feature outside the modelled
fragment. -/
def searchStep (df : Table) (search : String) : Option Table :=
  if search = "" then some df
  else (parsePat search).map (fun tks => df.filter (rowMatches tks))

end Search

/-! ## The seven tables, the module registry, and the dashboard -/

/-- The seven table names of the schema dictionary (line 28-36). -/
inductive TableName where
  | students | teachers | attendance | fees | exams | library | timetable
deriving DecidableEq, Repr

/-- The column list of each `CREATE TABLE` schema (line 29-35), in
declaration order. -/
def schemaColumns : TableName → List String
  | .students   => ["id", "name", "class", "age"]
  | .teachers   => ["id", "name", "subject"]
  | .attendance => ["id", "student_id", "date", "status"]
  | .fees       => ["id", "student_id", "amount", "paid"]
  | .exams      => ["id", "student_id", "subject", "marks"]
  | .library    => ["id", "book", "student_id", "issue_date"]
  | .timetable  => ["id", "class", "day", "subject", "teacher"]

/-- The `fields` list each `crud_module` call passes for its table
(lines 119, 123, 134, 138, 142, 146, 150); these are also the `add_cols`
lists, which coincide at every call site. -/
def moduleFields : TableName → List String
  | .students   => ["name", "class", "age"]
  | .teachers   => ["name", "subject"]
  | .attendance => ["student_id", "date", "status"]
  | .fees       => ["student_id", "amount", "paid"]
  | .exams      => ["student_id", "subject", "marks"]
  | .library    => ["book", "student_id", "issue_date"]
  | .timetable  => ["class", "day", "subject", "teacher"]

/-- The whole database `school.db`: one table per name. -/
structure Store where
  students   : Table
  teachers   : Table
  attendance : Table
  fees       : Table
  exams      : Table
  library    : Table
  timetable  : Table
deriving DecidableEq, Repr

/-- The freshly created database (line 37-39 creates empty tables). -/
def emptyStore : Store :=
  { students := [], teachers := [], attendance := [], fees := [],
    exams := [], library := [], timetable := [] }

/-- Read one table of the store by name. -/
def Store.get (s : Store) : TableName → Table
  | .students => s.students | .teachers => s.teachers
  | .attendance => s.attendance | .fees => s.fees
  | .exams => s.exams | .library => s.library | .timetable => s.timetable

/-- Replace one table of the store by name. -/
def Store.set (s : Store) : TableName → Table → Store
  | .students,   t => { s with students := t }
  | .teachers,   t => { s with teachers := t }
  | .attendance, t => { s with attendance := t }
  | .fees,       t => { s with fees := t }
  | .exams,      t => { s with exams := t }
  | .library,    t => { s with library := t }
  | .timetable,  t => { s with timetable := t }

/-- An `add_record` call targeting one table of the store. -/
def storeAdd (s : Store) (tn : TableName) (vals : List Value) : Store :=
  s.set tn (add_record (s.get tn) vals)

/-- A `delete_record` call targeting one table of the store. -/
def storeDelete (s : Store) (tn : TableName) (i : Int) : Store :=
  s.set tn (delete_record (s.get tn) i)

/-- An update-step run targeting one table of the store. -/
def storeUpdate (s : Store) (tn : TableName) (rid : Int) (us : List String) : Store :=
  s.set tn (update_record (s.get tn) rid us)

/-! The dashboard (line 105-115).  Each metric re-reads its table through
`get_df` on every render. -/

/-- Dashboard metric "Total Students": `len(get_df('students'))`
(line 109). -/
def totalStudents (s : Store) : Nat := (get_df s.students).length

/-- Dashboard metric "Total Teachers": `len(get_df('teachers'))`
(line 110). -/
def totalTeachers (s : Store) : Nat := (get_df s.teachers).length

/-- Dashboard metric "Books Issued": `len(get_df('library'))`
(line 111). -/
def booksIssued (s : Store) : Nat := (get_df s.library).length

/-- The integer content of the column at data position `i` of a row
(position counted after the id column: `paid` is position 2 of `fees`,
`amount` is position 1). -/
def colInt (i : Nat) (r : Row) : Int := (r.fields.getD i (Value.intV 0)).asInt

/-- Dashboard metric "Total Fees Paid" (line 112):
`get_df('fees')['paid'].sum() if not get_df('fees').empty else 0` —
`paid` is data column 2 of the `fees` schema. -/
def totalFeesPaid (s : Store) : Int :=
  if (get_df s.fees).isEmpty then 0
  else ((get_df s.fees).map (colInt 2)).sum

/-- The "Mark Attendance" action (line 128-133):
`add_record("attendance", ["student_id","date","status"],
[student_id, str(date.today()), status])`, with `date.today()` passed in
as the string `today`. -/
def markAttendance (s : Store) (student_id : Int) (today status : String) : Store :=
  storeAdd s .attendance [.intV student_id, .textV today, .textV status]

/-! ## Operation sequences, for the identifier invariants -/

/-- One mutating operation a user can trigger on a single table through
the app: an add (values only, never an id), an update step, or a
delete. -/
inductive Op where
  | ins (vals : List Value)              : Op
  | upd (rid : Int) (us : List String)   : Op
  | del (i : Int)                        : Op
deriving DecidableEq, Repr

/-- Apply one operation to a table. -/
def applyOp (t : Table) : Op → Table
  | .ins vals   => add_record t vals
  | .upd rid us => update_record t rid us
  | .del i      => delete_record t i

/-- Apply a sequence of operations, oldest first. -/
def runOps (t : Table) (ops : List Op) : Table :=
  ops.foldl applyOp t

/-! ## Spec-side definitions

These follow the wording of the specification, to be compared with the
definitions above that were read off the source. -/

/-- Spec-side: case-insensitive substring containment, "the string form of
any column contains the query, case-insensitively". -/
def containsCI (hay needle : String) : Bool :=
  decide (needle.data.map Char.toLower <:+: hay.data.map Char.toLower)

/-- Spec-side: the fields of the targeted row after an update, per the
spec wording — "every field with a non-empty supplied value is written …
fields left empty are skipped". -/
def UpdSpec (fs : List Value) (us : List String) (gs : List Value) : Prop :=
  gs.length = fs.length ∧
  ∀ i : Nat, gs[i]? = (fs[i]?).map (fun f =>
    match us[i]? with
    | some u => if u = "" then f else Value.textV u
    | none   => f)

/-! ## Helper lemmas -/

lemma mem_le_foldr_max (l : List Int) (a : Int) (h : a ∈ l) (b : Int) :
    a ≤ l.foldr max b := by
  induction l with
  | nil => cases h
  | cons c l ih =>
    rcases List.mem_cons.mp h with rfl | h2
    · exact le_max_left _ _
    · exact le_trans (ih h2) (le_max_right _ _)

lemma id_lt_nextId {t : Table} {r : Row} (h : r ∈ t) : r.id < nextId t := by
  have : r.id ≤ (t.map Row.id).foldr max 0 :=
    mem_le_foldr_max _ _ (List.mem_map_of_mem Row.id h) 0
  unfold nextId
  omega

lemma nextId_not_mem {t : Table} {r : Row} (h : r ∈ t) : r.id ≠ nextId t :=
  ne_of_lt (id_lt_nextId h)

lemma applyUpdates_length (fs : List Value) (us : List String) :
    (applyUpdates fs us).length = fs.length := by
  induction fs generalizing us with
  | nil => simp [applyUpdates]
  | cons f fs ih =>
    cases us with
    | nil => simp [applyUpdates]
    | cons u us => simp [applyUpdates, ih]

lemma applyUpdates_getElem? (fs : List Value) (us : List String) (i : Nat) :
    (applyUpdates fs us)[i]? = (fs[i]?).map (fun f =>
      match us[i]? with
      | some u => if u = "" then f else Value.textV u
      | none   => f) := by
  induction fs generalizing us i with
  | nil => simp [applyUpdates]
  | cons f fs ih =>
    cases us with
    | nil =>
      cases i <;> simp [applyUpdates]
    | cons u us =>
      cases i with
      | zero => simp [applyUpdates]
      | succ j => simpa [applyUpdates] using ih us j

lemma applyUpdates_spec (fs : List Value) (us : List String) :
    UpdSpec fs us (applyUpdates fs us) :=
  ⟨applyUpdates_length fs us, applyUpdates_getElem? fs us⟩

lemma applyUpdates_all_empty {us : List String} (h : ∀ u ∈ us, u = "")
    (fs : List Value) : applyUpdates fs us = fs := by
  induction fs generalizing us with
  | nil => simp [applyUpdates]
  | cons f fs ih =>
    cases us with
    | nil => simp [applyUpdates]
    | cons u us =>
      have hu : u = "" := h u (List.mem_cons_self u us)
      have hrest : ∀ v ∈ us, v = "" := fun v hv => h v (List.mem_cons_of_mem u hv)
      simp [applyUpdates, hu, ih hrest]

lemma update_record_map_id (t : Table) (rid : Int) (us : List String) :
    (update_record t rid us).map Row.id = t.map Row.id := by
  unfold update_record
  rw [List.map_map]
  apply List.map_congr_left
  intro r _
  by_cases h : r.id = rid <;> simp [h]

lemma add_record_map_id (t : Table) (vals : List Value) :
    (add_record t vals).map Row.id = t.map Row.id ++ [nextId t] := by
  simp [add_record]

lemma delete_record_map_id (t : Table) (i : Int) :
    (delete_record t i).map Row.id = (t.map Row.id).filter (fun x => x ≠ i) := by
  induction t with
  | nil => rfl
  | cons r t ih =>
    by_cases h : r.id = i <;> simp [delete_record, List.filter_cons, h] <;>
      simpa [delete_record] using ih

/-! ### Regular-expression lemmas: a pattern of plain literal characters
searches exactly like case-insensitive substring containment. -/

lemma matchFront_lit (qs cs : List Char) :
    matchFront (qs.map RTok.lit) cs = true ↔
      qs.map Char.toLower <+: cs.map Char.toLower := by
  induction qs generalizing cs with
  | nil => simp [matchFront]
  | cons q qs ih =>
    cases cs with
    | nil => simp [matchFront]
    | cons c cs =>
      simp only [List.map_cons, matchFront, Bool.and_eq_true, tokMatch,
        decide_eq_true_eq, List.cons_prefix_cons]
      exact and_congr Iff.rfl (ih cs)

lemma reSearch_lit (qs cs : List Char) :
    reSearch (qs.map RTok.lit) cs = true ↔
      qs.map Char.toLower <:+: cs.map Char.toLower := by
  induction cs with
  | nil =>
    simp only [reSearch, List.map_nil]
    rw [matchFront_lit]
    simp
  | cons c cs ih =>
    simp only [reSearch, Bool.or_eq_true, List.map_cons, List.infix_cons_iff]
    rw [matchFront_lit, ih]
    simp

lemma containsCI_eq_reSearch_lit (hay needle : String) :
    containsCI hay needle = reSearch (needle.data.map RTok.lit) hay.data := by
  rcases h : reSearch (needle.data.map RTok.lit) hay.data with _ | _
  · have := (not_iff_not.mpr (reSearch_lit needle.data hay.data)).mp (by simp [h])
    simpa [containsCI] using this
  · have := (reSearch_lit needle.data hay.data).mp h
    simpa [containsCI] using this

lemma parseTok_lit {c : Char} (h1 : c ∉ metachars) (h2 : c ≠ '.') :
    parseTok c = some (RTok.lit c) := by
  simp [parseTok, h1, h2]

lemma mapM_parseTok_lit (cs : List Char)
    (h : ∀ c ∈ cs, c ∉ metachars ∧ c ≠ '.') :
    cs.mapM parseTok = some (cs.map RTok.lit) := by
  induction cs with
  | nil => rfl
  | cons c cs ih =>
    have hc := h c (List.mem_cons_self c cs)
    have hcs : ∀ d ∈ cs, d ∉ metachars ∧ d ≠ '.' :=
      fun d hd => h d (List.mem_cons_of_mem c hd)
    rw [List.mapM_cons, parseTok_lit hc.1 hc.2, ih hcs]
    rfl

lemma parsePat_lit {q : String} (h : ∀ c ∈ q.data, c ∉ metachars ∧ c ≠ '.') :
    parsePat q = some (q.data.map RTok.lit) :=
  mapM_parseTok_lit q.data h

/-! ### Delete lemmas -/

lemma delete_record_eq_self {t : Table} {i : Int} (h : ∀ r ∈ t, r.id ≠ i) :
    delete_record t i = t :=
  List.filter_eq_self.mpr (fun r hr => decide_eq_true (h r hr))

lemma delete_record_length (t : Table) (i : Int)
    (hnd : (t.map Row.id).Nodup) :
    (delete_record t i).length = t.length ∨
      (delete_record t i).length + 1 = t.length := by
  have hsplit := List.length_eq_countP_add_countP (fun r => decide (r.id = i)) t
  have hflen : (delete_record t i).length =
      t.countP (fun a => decide ¬(decide (a.id = i) = true)) := by
    unfold delete_record
    rw [← List.countP_eq_length_filter]
    apply List.countP_congr
    intro r _
    simp
  have hcount : t.countP (fun r => decide (r.id = i)) ≤ 1 := by
    have h1 : (t.map Row.id).count i ≤ 1 := List.nodup_iff_count_le_one.mp hnd i
    have h2 : (t.map Row.id).count i = t.countP (fun r => decide (r.id = i)) := by
      rw [List.count, List.countP_map]
      apply List.countP_congr
      intro r _
      simp [Function.comp]
    omega
  omega

/-! ### Identifier-uniqueness lemmas -/

lemma nodup_add_record {t : Table} (vals : List Value)
    (h : (t.map Row.id).Nodup) : ((add_record t vals).map Row.id).Nodup := by
  rw [add_record_map_id]
  rw [List.nodup_append]
  refine ⟨h, List.nodup_singleton _, ?_⟩
  intro x hx hx1
  have hx2 : x = nextId t := by simpa using hx1
  obtain ⟨r, hr, rfl⟩ := List.mem_map.mp hx
  exact nextId_not_mem hr hx2

lemma nodup_delete_record {t : Table} (i : Int)
    (h : (t.map Row.id).Nodup) : ((delete_record t i).map Row.id).Nodup :=
  h.sublist (List.Sublist.map Row.id (List.filter_sublist t))

lemma nodup_applyOp {t : Table} (op : Op)
    (h : (t.map Row.id).Nodup) : ((applyOp t op).map Row.id).Nodup := by
  cases op with
  | ins vals => exact nodup_add_record vals h
  | upd rid us => rw [applyOp, update_record_map_id]; exact h
  | del i => exact nodup_delete_record i h

lemma nodup_runOps {t : Table} (ops : List Op)
    (h : (t.map Row.id).Nodup) : ((runOps t ops).map Row.id).Nodup := by
  induction ops generalizing t with
  | nil => exact h
  | cons op ops ih => exact ih (nodup_applyOp op h)

/-! ## Concrete data for witnesses and counterexamples -/

/-- A one-row students table used by concrete instances. -/
def exTable : Table := [{ id := 1, fields := [Value.textV "Bob"] }]

/-- The row of the search counterexample: a student "Aisha", class "5A",
age 10, with id 1. -/
def cexRow : Row := { id := 1, fields := [Value.textV "Aisha", Value.textV "5A", Value.intV 10] }

/-- The fees scenario of the spec: Fee(student_id=1, amount=500, paid=1)
and Fee(student_id=2, amount=300, paid=0) inserted into the fresh
database. -/
def feesScenario : Store :=
  storeAdd (storeAdd emptyStore .fees [Value.intV 1, Value.intV 500, Value.intV 1])
    .fees [Value.intV 2, Value.intV 300, Value.intV 0]

/-! ## Claim theorems -/

/-- C1: inserting a record via `add_record` and fetching via `get_df`
yields exactly the old snapshot followed by one new row whose data fields
are the inserted values verbatim, under an auto-assigned identifier that
no previously existing row carries; all previous rows are unchanged (they
reappear identically, in order, as the prefix of the new snapshot). -/
theorem insert_then_fetch (t : Table) (vals : List Value) :
    get_df (add_record t vals) =
      get_df t ++ [{ id := nextId t, fields := vals }] ∧
    (get_df (add_record t vals)).length = (get_df t).length + 1 ∧
    ∀ r ∈ get_df t, r.id ≠ nextId t :=
  ⟨rfl, by simp [get_df, add_record], fun _ hr => nextId_not_mem hr⟩

/-- Witness for C1 at a concrete one-row table. -/
theorem insert_then_fetch_app :
    get_df (add_record exTable [Value.textV "Amy"]) =
      [{ id := 1, fields := [Value.textV "Bob"] },
       { id := 2, fields := [Value.textV "Amy"] }] ∧
    ({ id := 1, fields := [Value.textV "Bob"] } : Row).id ≠ nextId exTable := by
  constructor
  · rw [(insert_then_fetch exTable [Value.textV "Amy"]).1]; rfl
  · exact (insert_then_fetch exTable [Value.textV "Amy"]).2.2 _ (by simp [exTable, get_df])

/-- C2: the update step writes exactly the fields whose supplied text is
non-empty, positionally, to every row carrying the target identifier
(under the uniqueness invariant that is at most one row) and leaves all
other fields and all other rows unchanged; an all-empty submission
changes nothing, and an identifier matching no row is a silent no-op. -/
theorem update_writes_exactly_nonempty_fields
    (t : Table) (rid : Int) (us : List String) :
    (update_record t rid us).length = t.length ∧
    (∀ (j : Nat) (r : Row), t[j]? = some r → r.id ≠ rid →
      (update_record t rid us)[j]? = some r) ∧
    (∀ (j : Nat) (r : Row), t[j]? = some r → r.id = rid →
      ∃ g, (update_record t rid us)[j]? = some g ∧ g.id = r.id ∧
        UpdSpec r.fields us g.fields) ∧
    ((∀ u ∈ us, u = "") → update_record t rid us = t) ∧
    ((∀ r ∈ t, r.id ≠ rid) → update_record t rid us = t) := by
  refine ⟨by simp [update_record], ?_, ?_, ?_, ?_⟩
  · intro j r hj hne
    simp [update_record, hj, hne]
  · intro j r hj heq
    refine ⟨{ r with fields := applyUpdates r.fields us }, ?_, rfl, ?_⟩
    · simp [update_record, hj, heq]
    · exact applyUpdates_spec r.fields us
  · intro hall
    unfold update_record
    have h1 : ∀ r ∈ t, (if r.id = rid
        then { r with fields := applyUpdates r.fields us } else r) = r := by
      intro r _
      by_cases h : r.id = rid
      · rw [if_pos h, applyUpdates_all_empty hall]
      · rw [if_neg h]
    rw [List.map_congr_left h1, List.map_id']
  · intro hall
    unfold update_record
    have h1 : ∀ r ∈ t, (if r.id = rid
        then { r with fields := applyUpdates r.fields us } else r) = r := by
      intro r hr
      rw [if_neg (hall r hr)]
    rw [List.map_congr_left h1, List.map_id']

/-- Witness for C2 at a concrete table: updating row 1 of `exTable` with
the single non-empty text "Tim" rewrites its one data field, and an
update aimed at the absent id 9 is a no-op. -/
theorem update_writes_exactly_nonempty_fields_app :
    (∃ g, (update_record exTable 1 ["Tim"])[0]? = some g ∧
      g.id = ({ id := 1, fields := [Value.textV "Bob"] } : Row).id ∧
      UpdSpec [Value.textV "Bob"] ["Tim"] g.fields) ∧
    update_record exTable 9 [""] = exTable := by
  constructor
  · exact (update_writes_exactly_nonempty_fields exTable 1 ["Tim"]).2.2.1 0
      { id := 1, fields := [Value.textV "Bob"] } (by simp [exTable]) rfl
  · exact (update_writes_exactly_nonempty_fields exTable 9 [""]).2.2.2.2
      (by simp [exTable])

/-- C4: `delete_record` removes exactly the rows carrying the given
identifier — under the uniqueness invariant that is at most one row — and
keeps every other row; when no row matches, the table is returned intact
(same rows, same length, no error value anywhere in the signature). -/
theorem delete_by_id_at_most_one_row (t : Table) (i : Int)
    (hnd : (t.map Row.id).Nodup) :
    (∀ r ∈ delete_record t i, r.id ≠ i) ∧
    (∀ r ∈ t, r.id ≠ i → r ∈ delete_record t i) ∧
    List.Sublist (delete_record t i) t ∧
    ((delete_record t i).length = t.length ∨
      (delete_record t i).length + 1 = t.length) ∧
    ((∀ r ∈ t, r.id ≠ i) → delete_record t i = t) := by
  refine ⟨?_, ?_, List.filter_sublist t, delete_record_length t i hnd, ?_⟩
  · intro r hr
    have := List.of_mem_filter hr
    simpa using this
  · intro r hr hne
    exact List.mem_filter.mpr ⟨hr, by simpa using hne⟩
  · exact fun h => delete_record_eq_self h

/-- Witness for C4: deleting the absent id 9 from the two-row table
leaves it intact. -/
theorem delete_by_id_at_most_one_row_app :
    delete_record [({ id := 1, fields := [] } : Row), { id := 2, fields := [] }] 9 =
      [({ id := 1, fields := [] } : Row), { id := 2, fields := [] }] :=
  (delete_by_id_at_most_one_row
      [{ id := 1, fields := [] }, { id := 2, fields := [] }] 9
      (by decide)).2.2.2.2 (by decide)

/-- C3 (amended): an empty query leaves the snapshot unfiltered; a
non-empty query is interpreted by the search step as a case-insensitive
*regular expression* (the pandas `str.contains` default), so only for
queries free of regex metacharacters — literal characters only, no `.` —
does it return exactly the rows in which the string form of some column
contains the query case-insensitively. -/
theorem search_filters_by_substring (df : Table) (q : String) :
    searchStep df "" = some df ∧
    (q ≠ "" → (∀ c ∈ q.data, c ∉ metachars ∧ c ≠ '.') →
      searchStep df q =
        some (df.filter (fun r =>
          (rowCells r).any (fun cell => containsCI cell q)))) := by
  constructor
  · simp [searchStep]
  · intro hne hlit
    unfold searchStep
    rw [if_neg hne, parsePat_lit hlit]
    have h1 : rowMatches (q.data.map RTok.lit) = fun r =>
        (rowCells r).any (fun cell => containsCI cell q) := by
      funext r
      unfold rowMatches
      congr 1
      funext cell
      exact (containsCI_eq_reSearch_lit cell q).symm
    rw [Option.map, h1]

/-- Witness for C3 at a concrete table and the literal query "aish". -/
theorem search_filters_by_substring_app :
    searchStep [cexRow] "" = some [cexRow] ∧
    searchStep [cexRow] "aish" =
      some (List.filter (fun r =>
        (rowCells r).any (fun cell => containsCI cell "aish")) [cexRow]) :=
  ⟨(search_filters_by_substring [cexRow] "aish").1,
   (search_filters_by_substring [cexRow] "aish").2 (by decide) (by decide)⟩

/-- C3 counterexample: the query "." matches *no* cell of the one-row
table as a substring (case-insensitively), so the claim as stated
predicts an empty result set — but the code keeps the row, because
pandas `str.contains` treats "." as a regular expression that matches
any character. -/
theorem search_dot_query_cex :
    (rowCells cexRow).all (fun cell => !(containsCI cell ".")) = true ∧
    searchStep [cexRow] "." = some [cexRow] ∧
    some [cexRow] ≠ some ([] : Table) := by
  refine ⟨by decide, by decide, by decide⟩

/-- C5: the dashboard metric "Total Fees Paid" equals the sum of the
`paid` column (data position 2) over all rows of the fees table, is zero
on an empty fees table, and on the spec scenario — Fee(1, 500, paid=1)
then Fee(2, 300, paid=0) into a fresh database — it equals 1, while the
sum of the `amount` column there is 800. -/
theorem dashboard_total_fees_paid (s : Store) :
    totalFeesPaid s = ((get_df s.fees).map (colInt 2)).sum ∧
    (s.fees = [] → totalFeesPaid s = 0) ∧
    totalFeesPaid feesScenario = 1 ∧
    ((get_df feesScenario.fees).map (colInt 1)).sum = 800 := by
  refine ⟨?_, ?_, by decide, by decide⟩
  · cases hf : s.fees with
    | nil => simp [totalFeesPaid, get_df, hf]
    | cons r rest => simp [totalFeesPaid, get_df, hf]
  · intro hf
    simp [totalFeesPaid, get_df, hf]

/-- Witness for C5: a fresh database reports zero fees paid. -/
theorem dashboard_total_fees_paid_app : totalFeesPaid emptyStore = 0 :=
  (dashboard_total_fees_paid emptyStore).2.1 rfl

/-- C6: inserting one student row bumps the dashboard count of students
by exactly one and leaves the teacher count, the library count, and the
fees-paid sum untouched. -/
theorem insert_student_bumps_only_students (s : Store) (vals : List Value) :
    totalStudents (storeAdd s .students vals) = totalStudents s + 1 ∧
    totalTeachers (storeAdd s .students vals) = totalTeachers s ∧
    booksIssued (storeAdd s .students vals) = booksIssued s ∧
    totalFeesPaid (storeAdd s .students vals) = totalFeesPaid s := by
  refine ⟨?_, rfl, rfl, rfl⟩
  simp [totalStudents, storeAdd, Store.set, Store.get, get_df, add_record]

/-- C7: the specialized "Mark Attendance" action appends exactly one row
to the attendance table carrying the chosen student id, the current date
string and the chosen status, and that row is visible through the generic
CRUD view over the same table (the full, unfiltered snapshot). -/
theorem mark_attendance_appends (s : Store) (sid : Int) (today status : String)
    (h : status = "Present" ∨ status = "Absent") :
    (markAttendance s sid today status).attendance =
      s.attendance ++
        [{ id := nextId s.attendance,
           fields := [Value.intV sid, Value.textV today, Value.textV status] }] ∧
    ({ id := nextId s.attendance,
       fields := [Value.intV sid, Value.textV today, Value.textV status] } : Row) ∈
      get_df ((markAttendance s sid today status).attendance) ∧
    searchStep (get_df ((markAttendance s sid today status).attendance)) "" =
      some (s.attendance ++
        [{ id := nextId s.attendance,
           fields := [Value.intV sid, Value.textV today, Value.textV status] }]) := by
  refine ⟨rfl, ?_, ?_⟩
  · simp [markAttendance, storeAdd, Store.set, Store.get, get_df, add_record]
  · simp [searchStep, markAttendance, storeAdd, Store.set, Store.get, get_df, add_record]

/-- Witness for C7: marking student 7 "Present" on 2026-10-12 in a fresh
database appends the expected attendance row. -/
theorem mark_attendance_appends_app :
    (markAttendance emptyStore 7 "2026-10-12" "Present").attendance =
      [{ id := 1,
         fields := [Value.intV 7, Value.textV "2026-10-12", Value.textV "Present"] }] := by
  have h := (mark_attendance_appends emptyStore 7 "2026-10-12" "Present"
    (Or.inl rfl)).1
  rw [h]
  rfl

/-- C8: starting from the freshly created (empty) table, after any
sequence of insert, update and delete operations the row identifiers are
pairwise distinct; every insert stores exactly the supplied data values
under the store-computed `nextId` — the operations carry no id of their
own. -/
theorem identifiers_pairwise_distinct (ops : List Op) :
    ((runOps [] ops).map Row.id).Nodup ∧
    (∀ vals, runOps [] (ops ++ [Op.ins vals]) =
      runOps [] ops ++
        [{ id := nextId (runOps [] ops), fields := vals }]) := by
  constructor
  · exact nodup_runOps ops (by simp)
  · intro vals
    simp [runOps, applyOp, add_record]

/-- C9: deleting a student touches only the students table — attendance,
fees, exams and library rows (orphaned `student_id` references included)
as well as teachers and timetable survive verbatim, and the students
table itself merely loses the rows with the given id. -/
theorem delete_student_keeps_dependents (s : Store) (i : Int) :
    (storeDelete s .students i).attendance = s.attendance ∧
    (storeDelete s .students i).fees = s.fees ∧
    (storeDelete s .students i).exams = s.exams ∧
    (storeDelete s .students i).library = s.library ∧
    (storeDelete s .students i).teachers = s.teachers ∧
    (storeDelete s .students i).timetable = s.timetable ∧
    (storeDelete s .students i).students =
      s.students.filter (fun r => r.id ≠ i) :=
  ⟨rfl, rfl, rfl, rfl, rfl, rfl, rfl⟩

/-- C10: identifiers are immutable — no field list handed to the generic
CRUD view contains the `id` column (they are exactly the non-id schema
columns, in order), updates preserve every row's id, an insert only
appends the fresh `nextId`, and a delete only drops ids, never rewrites
one. -/
theorem identifiers_immutable :
    (∀ tn : TableName, "id" ∉ moduleFields tn ∧
      schemaColumns tn = "id" :: moduleFields tn) ∧
    (∀ (t : Table) (rid : Int) (us : List String),
      (update_record t rid us).map Row.id = t.map Row.id) ∧
    (∀ (t : Table) (vals : List Value),
      (add_record t vals).map Row.id = t.map Row.id ++ [nextId t]) ∧
    (∀ (t : Table) (i : Int),
      (delete_record t i).map Row.id = (t.map Row.id).filter (fun x => x ≠ i)) := by
  refine ⟨?_, update_record_map_id, add_record_map_id, delete_record_map_id⟩
  intro tn
  cases tn <;> exact ⟨by decide, rfl⟩
